import Mathlib

/-!
Shallow embedding of the statistical-analysis engine of the repository
(packages/agent/src/tools/statistical-analysis): the cell and table model
produced by the CSV/Excel readers, the descriptive-statistics engine
(methods/descriptive-stats.ts), the two-sample t-test engine
(methods/t-test.ts) and the distribution-function dispatch
(utils/distributions.ts).

Conventions of the embedding:
* JavaScript numbers are modelled as exact rationals for data values and as
  real numbers where square roots appear; binary64 rounding, overflow and NaN
  payloads are outside the model.  The readers never store a NaN in a row
  (the CSV parser turns a NaN parse into a string cell, the Excel reader
  turns it into null), so row cells carry plain rationals.
* A JavaScript null cell is `Option.none`; the NaN fields of a `ColumnStats`
  record (produced only for an empty numeric subset) are modelled as
  `Option.none`.
* The stringification `String(x)` of a numeric cell is a parameter
  `toStr : ℚ → String` of every definition that needs it; a string cell
  stringifies to itself and null stringifies to "null", as in JavaScript.
* The jstat distribution functions are an external library; they enter the
  model as function parameters (`cdf` for the Student t CDF, `tinv` for its
  inverse CDF).
* The engines receive the already-parsed table (headers plus row records),
  which is the boundary the readers produce; file IO, byte-level parsing,
  row-limit truncation and the human-readable summary/interpretation strings
  are outside the embedded fragment, as is the Levene test (no claim touches
  it).
-/

/-- A non-null cell value stored in a row: a number or a string
(csv-reader.ts builds rows of type `Record<string, string | number | null>`). -/
inductive JSVal where
  | num (q : ℚ)
  | str (s : String)
deriving DecidableEq

/-- A cell of a row; `none` is the JavaScript `null` used for missing values. -/
abbrev Cell := Option JSVal

/-- A row record as built by the readers: a total map from column name to
cell (the readers give every header a value, defaulting to null). -/
abbrev Row := String → Cell

/-- The parsed table the engines consume: header list and row records
(the `headers`/`rows` parts of `CSVReadResult`). -/
structure Table where
  headers : List String
  rows : List Row

/-- The validation failures of the engines, one constructor per `throw`
site, carrying the data interpolated into the thrown message. -/
inductive StatError where
  | unknownColumns (missing : List String) (available : List String)
  | noNumericColumns
  | missingVariable
  | missingGroupColumn
  | groupCount (column : String) (found : List String)
  | insufficientSample (name1 : String) (n1 : ℕ) (name2 : String) (n2 : ℕ)
  | oddSampleSize (count : ℕ)
  | unequalPairedSizes (name1 : String) (n1 : ℕ) (name2 : String) (n2 : ℕ)
deriving DecidableEq

/-- The `typeof v === 'number' && !Number.isNaN(v)` guard of
`extractNumericValues` (csv-reader.ts) as a partial projection; row cells of
the model are never NaN, so only the type test remains. -/
def cellNum? : Cell → Option ℚ
  | some (.num q) => some q
  | _ => none

/-- Whether a cell passes the numeric guard of `extractNumericValues`. -/
def isNumCell : Cell → Bool
  | some (.num _) => true
  | _ => false

/-- Numeric values of a column, nulls and strings dropped
(`extractNumericValues`, csv-reader.ts): map the rows to the column's cells,
then keep the values passing the numeric guard. -/
def extractNumericValues (rows : List Row) (column : String) : List ℚ :=
  (rows.map fun row => row column).filterMap cellNum?

/-- Column-existence validation (`validateColumns`, csv-reader.ts): fails
when a requested column is not among the headers, carrying the unmatched
names and the available headers. -/
def validateColumns (headers : List String) (requestedColumns : List String) :
    Except StatError Unit :=
  let missing := requestedColumns.filter fun col => !headers.contains col
  if missing.length > 0 then .error (.unknownColumns missing headers) else .ok ()

/-- Column classification (`isNumericColumn`, csv-reader.ts): a column is
numeric when more than half of its non-null values are numbers.  The float
quotient comparison of the source is exact at these integer magnitudes, so
it is modelled as the rational comparison. -/
def isNumericColumn (values : List Cell) : Bool :=
  let nonNull := values.filter fun v => v.isSome
  if nonNull.length = 0 then false
  else
    let numericCount :=
      (nonNull.filter fun v =>
        match v with
        | some (.num _) => true
        | _ => false).length
    decide ((numericCount : ℚ) / (nonNull.length : ℚ) > 1 / 2)

/-- Integer-arithmetic form of the numeric-column test, equivalent to
`isNumericColumn` (proved below) and reducible by the kernel. -/
def isNumericColumnNat (values : List Cell) : Bool :=
  let nonNull := values.filter fun v => v.isSome
  let numericCount :=
    (nonNull.filter fun v =>
      match v with
      | some (.num _) => true
      | _ => false).length
  decide (nonNull.length < 2 * numericCount)

/-- The numeric columns of a table, in header order (the
`metadata.numericColumns` the readers compute). -/
def Table.numericColumns (t : Table) : List String :=
  t.headers.filter fun h => isNumericColumn (t.rows.map fun row => row h)

/-- Row count of the table (`metadata.totalRows`: both readers set it to the
length of the row list they return). -/
def Table.totalRows (t : Table) : ℕ := t.rows.length

/-- JavaScript `String(v)` for a non-null cell value: a string is itself and
a number is rendered by the runtime (parameterised as `toStr`). -/
def valToString (toStr : ℚ → String) : JSVal → String
  | .num q => toStr q
  | .str s => s

/-- JavaScript `String(x)` for a possibly-null cell: `String(null)` is the
four-letter string "null". -/
def cellToString (toStr : ℚ → String) : Cell → String
  | none => "null"
  | some v => valToString toStr v

/-- Deduplication pass keeping the first occurrence of each element, with
the set of already-seen elements carried along, as a JavaScript `Set` is
filled. -/
def insertOrderDedupAux [DecidableEq α] (seen : List α) : List α → List α
  | [] => []
  | a :: l =>
    if a ∈ seen then insertOrderDedupAux seen l
    else a :: insertOrderDedupAux (seen ++ [a]) l

/-- First-occurrence deduplication preserving encounter order, as a
JavaScript `Set` built from a list and spread back into an array behaves. -/
def insertOrderDedup [DecidableEq α] (l : List α) : List α :=
  insertOrderDedupAux [] l

/-- The missing-value vocabulary shared by the CSV and Excel readers
(`MISSING_VALUES`). -/
def MISSING_VALUES : List String :=
  ["", "NA", "NaN", "nan", "null", "NULL", "N/A", "n/a", ".", "-"]

/-- Result of the JavaScript `Number(string)` conversion: NaN, a signed
infinity, or a finite value.  Finite values are modelled as exact rationals:
the model does not round to binary64 (and in particular does not overflow a
huge decimal exponent to infinity). -/
inductive JsNum where
  | nan
  | inf (neg : Bool)
  | fin (q : ℚ)
deriving DecidableEq

/-- Value of a decimal digit character. -/
def digitToNat (c : Char) : ℕ := c.toNat - '0'.toNat

/-- Value of a hexadecimal digit character, if it is one. -/
def hexDigit? (c : Char) : Option ℕ :=
  if c.isDigit then some (digitToNat c)
  else if 'a' ≤ c ∧ c ≤ 'f' then some (c.toNat - 'a'.toNat + 10)
  else if 'A' ≤ c ∧ c ≤ 'F' then some (c.toNat - 'A'.toNat + 10)
  else none

/-- Value of an octal digit character, if it is one. -/
def octDigit? (c : Char) : Option ℕ :=
  if '0' ≤ c ∧ c ≤ '7' then some (digitToNat c) else none

/-- Value of a binary digit character, if it is one. -/
def binDigit? (c : Char) : Option ℕ :=
  if c = '0' ∨ c = '1' then some (digitToNat c) else none

/-- Value of a digit run in the given base. -/
def digitsVal (base : ℕ) (ds : List ℕ) : ℕ :=
  ds.foldl (fun acc d => base * acc + d) 0

/-- Body of a radix-prefixed integer literal (what follows `0x`, `0o` or
`0b`): a nonempty run of digits of the base, anything else NaN. -/
def radixVal (digit? : Char → Option ℕ) (base : ℕ) (cs : List Char) : JsNum :=
  match cs.mapM digit? with
  | some ds => if ds.isEmpty then .nan else .fin (digitsVal base ds)
  | none => .nan

/-- Unsigned part of an ECMA-262 StrDecimalLiteral: the exact word
`Infinity`, or `digits [. digits] [e|E [sign] digits]` with at least one
mantissa digit, consuming the whole string. -/
def parseUnsignedDec (cs : List Char) : JsNum :=
  if cs = "Infinity".toList then .inf false
  else
    let (intDs, rest) := cs.span Char.isDigit
    let (fracDs, rest2) :=
      match rest with
      | '.' :: r => r.span Char.isDigit
      | _ => ([], rest)
    if intDs.isEmpty ∧ fracDs.isEmpty then .nan
    else
      let mantissa : ℚ :=
        (digitsVal 10 (intDs.map digitToNat) : ℚ) +
          (digitsVal 10 (fracDs.map digitToNat) : ℚ) / 10 ^ fracDs.length
      match rest2 with
      | [] => .fin mantissa
      | e :: r =>
        if e = 'e' ∨ e = 'E' then
          let (sign, ds) : ℤ × List Char :=
            match r with
            | '+' :: r2 => (1, r2)
            | '-' :: r2 => (-1, r2)
            | _ => (1, r)
          if ds ≠ [] ∧ ds.all Char.isDigit then
            .fin (mantissa * (10 : ℚ) ^ (sign * (digitsVal 10 (ds.map digitToNat) : ℤ)))
          else .nan
        else .nan

/-- JavaScript `Number(s)` on an already-trimmed string (ECMA-262
StringNumericLiteral): empty gives 0; an optional sign before a decimal
literal or `Infinity`; an unsigned `0x`/`0o`/`0b` radix literal; anything
else is NaN. -/
def jsStringToNum (cs : List Char) : JsNum :=
  match cs with
  | [] => .fin 0
  | '+' :: rest => parseUnsignedDec rest
  | '-' :: rest =>
    match parseUnsignedDec rest with
    | .inf _ => .inf true
    | .fin q => .fin (-q)
    | .nan => .nan
  | '0' :: c :: rest =>
    if c = 'x' ∨ c = 'X' then radixVal hexDigit? 16 rest
    else if c = 'o' ∨ c = 'O' then radixVal octDigit? 8 rest
    else if c = 'b' ∨ c = 'B' then radixVal binDigit? 2 rest
    else parseUnsignedDec cs
  | _ => parseUnsignedDec cs

/-- JavaScript `string.trim()`: strip leading and trailing whitespace
characters (the model uses the ASCII whitespace set of `Char.isWhitespace`;
the runtime also strips some rarer Unicode space characters). -/
def jsTrim (s : String) : String :=
  ⟨((s.data.dropWhile Char.isWhitespace).reverse.dropWhile Char.isWhitespace).reverse⟩

/-- A parsed raw cell as `parseValue` (csv-reader.ts) returns it: null for
the missing vocabulary, a number when the whole trimmed string converts to a
non-NaN JavaScript number, otherwise the trimmed string. -/
inductive RawCell where
  | null
  | num (v : JsNum)
  | str (s : String)
deriving DecidableEq

/-- Cell normalization (`parseValue`, csv-reader.ts; the string branch of
`readExcel`, data-reader.ts, applies the same steps): trim, check the
missing vocabulary, then keep the `Number` conversion when it is not NaN. -/
def parseValue (value : String) : RawCell :=
  let trimmed := jsTrim value
  if MISSING_VALUES.contains trimmed then .null
  else
    let num := jsStringToNum trimmed.toList
    if num ≠ .nan ∧ trimmed ≠ "" then .num num
    else .str trimmed

/-- Follows the specification text, for comparison with `parseValue`: the
entire trimmed string parses as a FINITE number.  The implementation only
rejects NaN, so the two disagree on the infinities. -/
def specFiniteNumber (value : String) : Bool :=
  match jsStringToNum (jsTrim value).toList with
  | .fin _ => true
  | _ => false

namespace Desc

/-- Mean of an array (descriptive-stats.ts `mean`): sum divided by length. -/
def mean (values : List ℚ) : ℚ := values.sum / (values.length : ℚ)

/-- Sample standard deviation with Bessel correction, 0 when the list has at
most one element (descriptive-stats.ts `std`; the optional average argument
is always supplied by the caller). -/
noncomputable def std (values : List ℚ) (avg : ℚ) : ℝ :=
  if values.length ≤ 1 then 0
  else
    Real.sqrt (((values.map fun v => (v - avg) ^ 2).sum : ℚ) / ((values.length : ℝ) - 1))

/-- Linear interpolation between the entries at the floor and the ceiling of
a fractional index (the body of `percentile` after its two guards). -/
def interpAt (sorted : List ℚ) (index : ℚ) : ℚ :=
  let lower : ℤ := Int.floor index
  let upper : ℤ := Int.ceil index
  let fraction : ℚ := index - (lower : ℚ)
  if lower = upper then sorted.getD lower.toNat 0
  else sorted.getD lower.toNat 0 * (1 - fraction) + sorted.getD upper.toNat 0 * fraction

/-- Percentile by linear interpolation on a sorted array
(descriptive-stats.ts `percentile`).  The source returns NaN for an empty
array; the engine never reaches that branch (it handles the empty subset
before computing quantiles), and the model returns 0 there. -/
def percentile (sorted : List ℚ) (p : ℚ) : ℚ :=
  if sorted.length = 0 then 0
  else if sorted.length = 1 then sorted.getD 0 0
  else interpAt sorted (p / 100 * ((sorted.length : ℚ) - 1))

/-- Bias-corrected sample skewness (descriptive-stats.ts `skewness`):
0 when fewer than 3 values or zero standard deviation. -/
noncomputable def skewness (values : List ℚ) (avg : ℚ) (sd : ℝ) : ℝ :=
  if values.length < 3 ∨ sd = 0 then 0
  else
    let n : ℝ := (values.length : ℝ)
    let m3 := (values.map fun v => (((v : ℝ) - (avg : ℝ)) / sd) ^ 3).sum / n
    m3 * n * n / ((n - 1) * (n - 2))

/-- Bias-corrected excess kurtosis (descriptive-stats.ts `kurtosis`):
0 when fewer than 4 values or zero standard deviation. -/
noncomputable def kurtosis (values : List ℚ) (avg : ℚ) (sd : ℝ) : ℝ :=
  if values.length < 4 ∨ sd = 0 then 0
  else
    let n : ℝ := (values.length : ℝ)
    let m4 := (values.map fun v => (((v : ℝ) - (avg : ℝ)) / sd) ^ 4).sum / n
    let rawKurtosis := m4 * n * (n + 1) / ((n - 1) * (n - 2) * (n - 3))
    let correction := 3 * (n - 1) ^ 2 / ((n - 2) * (n - 3))
    rawKurtosis - correction

/-- Statistics record for one column (`ColumnStats`, types.ts).  The source
stores NaN in the numeric fields when the usable subset is empty; the model
stores `none` there.  The exact rational fields stay in ℚ, the square-root
derived fields live in ℝ. -/
structure ColumnStats where
  column : String
  count : ℕ
  mean : Option ℚ
  std : Option ℝ
  min : Option ℚ
  q1 : Option ℚ
  median : Option ℚ
  q3 : Option ℚ
  max : Option ℚ
  missingCount : ℕ
  skewness : Option ℝ
  kurtosis : Option ℝ

/-- Per-column statistics over the usable numeric values of a row subset
(descriptive-stats.ts `computeColumnStats`): an empty subset gives count 0,
`missingCount = totalRowCount` and NaN (here `none`) everywhere else;
otherwise the values are sorted and the moments and quantiles computed. -/
noncomputable def computeColumnStats (column : String) (values : List ℚ)
    (totalRowCount : ℕ) : ColumnStats :=
  if values.length = 0 then
    { column := column, count := 0, mean := none, std := none, min := none,
      q1 := none, median := none, q3 := none, max := none,
      missingCount := totalRowCount, skewness := none, kurtosis := none }
  else
    let sorted := values.mergeSort
    let avg := mean values
    let sd := std values avg
    { column := column
      count := values.length
      mean := some avg
      std := some sd
      min := some (sorted.getD 0 0)
      q1 := some (percentile sorted 25)
      median := some (percentile sorted 50)
      q3 := some (percentile sorted 75)
      max := some (sorted.getD (sorted.length - 1) 0)
      missingCount := totalRowCount - values.length
      skewness := some (skewness values avg sd)
      kurtosis := some (kurtosis values avg sd) }

/-- The row-count bookkeeping attached to every result (`DataInfo`,
types.ts; the file path is outside the model). -/
structure DataInfo where
  totalRows : ℕ
  usedRows : ℕ
  excludedRows : ℕ
deriving DecidableEq

/-- The structured output of the descriptive-statistics engine: data info,
per-column statistics, and the optional per-group breakdown (`details` of
`DescriptiveStatsResult`; the summary and interpretation prose are outside
the model).  The group breakdown is kept as an association list in the
iteration order of the discovered group values. -/
structure DescResult where
  dataInfo : DataInfo
  columns : List ColumnStats
  groupBy : Option String
  groups : Option (List (String × List ColumnStats))

/-- Default target-column choice (runDescriptiveStats: the branch where the
caller supplied no usable column list): all numeric columns, failing when
there are none. -/
def defaultTargets (t : Table) : Except StatError (List String) :=
  let targetColumns := t.numericColumns
  if targetColumns.length = 0 then .error .noNumericColumns else .ok targetColumns

/-- Target-column selection (runDescriptiveStats lines 132 to 141): the
source tests `columns && columns.length > 0`, so a missing list and an
explicitly empty list both fall to the numeric-column default; a nonempty
list is validated against the headers and used as given. -/
def targetColumnsOf (t : Table) (columns : Option (List String)) :
    Except StatError (List String) :=
  match columns with
  | some cs =>
    if 0 < cs.length then
      match validateColumns t.headers cs with
      | .error e => .error e
      | .ok _ => .ok cs
    else defaultTargets t
  | none => defaultTargets t

/-- The descriptive-statistics engine (`runDescriptiveStats`,
descriptive-stats.ts), from the parsed table on: column selection, groupBy
validation, whole-table statistics, and the optional per-group statistics.
Group values are the distinct non-null raw cell values of the groupBy
column in encounter order (a JavaScript Set of raw values); each is then
stringified and the rows matching that string are analysed.  Warnings and
diagnostics strings are outside the model. -/
noncomputable def runDescriptiveStats (toStr : ℚ → String) (t : Table)
    (columns : Option (List String)) (groupBy : Option String) :
    Except StatError DescResult :=
  match targetColumnsOf t columns with
  | .error e => .error e
  | .ok targetColumns =>
    match
      (match groupBy with
       | some g => validateColumns t.headers [g]
       | none => .ok ()) with
    | .error e => .error e
    | .ok _ =>
      let dataInfo : DataInfo :=
        { totalRows := t.totalRows, usedRows := t.totalRows, excludedRows := 0 }
      let columnStats := targetColumns.map fun col =>
        computeColumnStats col (extractNumericValues t.rows col) t.totalRows
      let groups : Option (List (String × List ColumnStats)) := groupBy.map fun g =>
        let groupValues := insertOrderDedup ((t.rows.map fun row => row g).filterMap id)
        groupValues.map fun gv =>
          let groupName := valToString toStr gv
          let groupRows := t.rows.filter fun row => cellToString toStr (row g) == groupName
          (groupName, targetColumns.map fun col =>
            computeColumnStats col (extractNumericValues groupRows col) groupRows.length)
      .ok { dataInfo := dataInfo, columns := columnStats, groupBy := groupBy, groups := groups }

end Desc

/-- Test direction of a t-test (`alternative`). -/
inductive Alt where
  | twoSided
  | less
  | greater
deriving DecidableEq

/-- P-value dispatch on the Student t CDF (`tDistributionPValue`,
utils/distributions.ts).  The CDF itself is the external jstat
`studentt.cdf`, passed in as `cdf`. -/
noncomputable def tDistributionPValue (cdf : ℝ → ℝ → ℝ) (tStatistic df : ℝ)
    (alternative : Alt) : ℝ :=
  let c := cdf tStatistic df
  match alternative with
  | .less => c
  | .greater => 1 - c
  | .twoSided => 2 * min c (1 - c)

/-- Two-sided critical value (`tCriticalValue`, utils/distributions.ts):
the inverse Student t CDF (external jstat `studentt.inv`, passed in as
`tinv`) at cumulative probability `1 - alpha / 2`. -/
noncomputable def tCriticalValue (tinv : ℝ → ℝ → ℝ) (alpha df : ℝ) : ℝ :=
  tinv (1 - alpha / 2) df

namespace TTest

/-- Mean of an array (t-test.ts `mean`). -/
def mean (values : List ℚ) : ℚ := values.sum / (values.length : ℚ)

/-- Sample variance with Bessel correction, 0 for at most one element
(t-test.ts `variance`; every caller lets the average default to the mean). -/
def variance (values : List ℚ) : ℚ :=
  if values.length ≤ 1 then 0
  else ((values.map fun v => (v - mean values) ^ 2).sum) / ((values.length : ℚ) - 1)

/-- Sample standard deviation (t-test.ts `std`). -/
noncomputable def std (values : List ℚ) : ℝ := Real.sqrt ((variance values : ℚ))

/-- Standard error of the mean difference for the Welch test
(t-test.ts line 251). -/
noncomputable def welchSE (g1 g2 : List ℚ) : ℝ :=
  Real.sqrt (((variance g1 / (g1.length : ℚ) + variance g2 / (g2.length : ℚ) : ℚ)))

/-- Welch t statistic (t-test.ts line 252): 0 when the standard error is 0. -/
noncomputable def welchT (g1 g2 : List ℚ) : ℝ :=
  if welchSE g1 g2 = 0 then 0 else ((mean g1 - mean g2 : ℚ) : ℝ) / welchSE g1 g2

/-- Denominator of the Welch-Satterthwaite degrees of freedom
(t-test.ts line 256). -/
def welchDFDenom (g1 g2 : List ℚ) : ℚ :=
  (variance g1 / (g1.length : ℚ)) ^ 2 / ((g1.length : ℚ) - 1) +
    (variance g2 / (g2.length : ℚ)) ^ 2 / ((g2.length : ℚ) - 1)

/-- Welch-Satterthwaite degrees of freedom (t-test.ts lines 255 to 257),
falling back to `n1 + n2 - 2` when the denominator is 0. -/
def welchDF (g1 g2 : List ℚ) : ℚ :=
  if welchDFDenom g1 g2 = 0 then (g1.length : ℚ) + (g2.length : ℚ) - 2
  else (variance g1 / (g1.length : ℚ) + variance g2 / (g2.length : ℚ)) ^ 2 / welchDFDenom g1 g2

/-- Cohen effect size (t-test.ts `cohensD`): mean over standard deviation of
the pairwise differences when paired, mean difference over the pooled
standard deviation otherwise, 0 when the divisor is 0. -/
noncomputable def cohensD (group1 group2 : List ℚ) (paired : Bool) : ℝ :=
  if paired then
    let diffs := group1.zipWith (fun a b => a - b) group2
    let diffStd := std diffs
    if diffStd = 0 then 0 else ((mean diffs : ℚ) : ℝ) / diffStd
  else
    let pooledVar : ℚ :=
      (((group1.length : ℚ) - 1) * variance group1 + ((group2.length : ℚ) - 1) * variance group2) /
        ((group1.length : ℚ) + (group2.length : ℚ) - 2)
    let pooledStd := Real.sqrt (pooledVar : ℝ)
    if pooledStd = 0 then 0 else ((mean group1 - mean group2 : ℚ) : ℝ) / pooledStd

/-- The distinct non-null stringified values of the groupBy column, in
first-encountered row order (t-test.ts lines 175 to 182: map the column,
drop nulls, stringify, then a JavaScript Set keeps first occurrences). -/
def uniqueGroups (toStr : ℚ → String) (rows : List Row) (groupByColumn : String) :
    List String :=
  insertOrderDedup (((rows.map fun row => row groupByColumn).filterMap id).map
    (valToString toStr))

/-- Independent-mode group construction (t-test.ts lines 173 to 197):
exactly two distinct stringified group values are required, any other count
fails naming the found groups; the rows of each group are those whose
stringified cell equals the group name, and the usable sample is the
numeric subset of the tested variable within them. -/
def independentGroups (toStr : ℚ → String) (rows : List Row)
    (groupByColumn varName : String) :
    Except StatError ((String × List ℚ) × (String × List ℚ)) :=
  match uniqueGroups toStr rows groupByColumn with
  | [group1Name, group2Name] =>
    let group1Rows := rows.filter fun row => cellToString toStr (row groupByColumn) == group1Name
    let group2Rows := rows.filter fun row => cellToString toStr (row groupByColumn) == group2Name
    .ok ((group1Name, extractNumericValues group1Rows varName),
         (group2Name, extractNumericValues group2Rows varName))
  | gs => .error (.groupCount groupByColumn gs)

/-- Paired-mode group construction (t-test.ts lines 198 to 211): all numeric
values of the variable in row order, split in half after requiring an even
count. -/
def pairedGroups (rows : List Row) (varName : String) :
    Except StatError (List ℚ × List ℚ) :=
  let allValues := extractNumericValues rows varName
  if allValues.length % 2 ≠ 0 then .error (.oddSampleSize allValues.length)
  else
    let halfLen := allValues.length / 2
    .ok (allValues.take halfLen, allValues.drop halfLen)

/-- Per-group summary in the result (`group1`/`group2` of `TTestResult`). -/
structure GroupStats where
  name : String
  n : ℕ
  mean : ℚ
  std : ℝ

/-- Everything the t-test computes except the p-value: the `alternative`
parameter of the source flows only into the p-value (t-test.ts line 261)
and the prose, so the rest of the computation is gathered here. -/
structure TTestCore where
  paired : Bool
  tStatistic : ℝ
  degreesOfFreedom : ℚ
  se : ℝ
  meanDifference : ℚ
  ciLower : ℝ
  ciUpper : ℝ
  cohensD : ℝ
  group1 : GroupStats
  group2 : GroupStats

/-- The structured t-test result (`details` of `TTestResult`; the summary
and interpretation prose and the Levene diagnostic are outside the model). -/
structure TTestDetails extends TTestCore where
  pValue : ℝ
  alternative : Alt

/-- The t-test engine without the p-value (`runTTest`, t-test.ts, lines 148
to 258 and 263 to 272): parameter validation, group construction, sample
size checks, then the statistic, degrees of freedom, confidence interval and
effect size.  The source tests the truthiness of `variable` and of
`groupByColumn`, so an empty string behaves like an absent one. -/
noncomputable def runTTestCore (toStr : ℚ → String) (tinv : ℝ → ℝ → ℝ) (t : Table)
    (varName : String) (groupByColumn : Option String) (paired : Bool) :
    Except StatError TTestCore :=
  if varName = "" then .error .missingVariable
  else if ¬paired ∧ groupByColumn.getD "" = "" then .error .missingGroupColumn
  else
    let gcol := groupByColumn.getD ""
    let requiredCols := if gcol ≠ "" then [varName, gcol] else [varName]
    match validateColumns t.headers requiredCols with
    | .error e => .error e
    | .ok _ =>
      let groupsE : Except StatError ((String × List ℚ) × (String × List ℚ)) :=
        if gcol ≠ "" then independentGroups toStr t.rows gcol varName
        else (pairedGroups t.rows varName).map fun p =>
          (("First half", p.1), ("Second half", p.2))
      match groupsE with
      | .error e => .error e
      | .ok ((group1Name, group1Values), (group2Name, group2Values)) =>
        if group1Values.length < 2 ∨ group2Values.length < 2 then
          .error (.insufficientSample group1Name group1Values.length
            group2Name group2Values.length)
        else if paired ∧ group1Values.length ≠ group2Values.length then
          .error (.unequalPairedSizes group1Name group1Values.length
            group2Name group2Values.length)
        else
          let n1 := group1Values.length
          let n2 := group2Values.length
          let mean1 := mean group1Values
          let mean2 := mean group2Values
          let tds : ℝ × ℚ × ℝ :=
            if paired then
              let diffs := group1Values.zipWith (fun a b => a - b) group2Values
              let diffStd := std diffs
              let se : ℝ := diffStd / Real.sqrt (n1 : ℝ)
              (if se = 0 then 0 else ((mean diffs : ℚ) : ℝ) / se, (n1 : ℚ) - 1, se)
            else
              (welchT group1Values group2Values, welchDF group1Values group2Values,
                welchSE group1Values group2Values)
          let tCrit := tCriticalValue tinv 0.05 ((tds.2.1 : ℚ) : ℝ)
          let meanDiff := mean1 - mean2
          .ok {
            paired := paired
            tStatistic := tds.1
            degreesOfFreedom := tds.2.1
            se := tds.2.2
            meanDifference := meanDiff
            ciLower := ((meanDiff : ℚ) : ℝ) - tCrit * tds.2.2
            ciUpper := ((meanDiff : ℚ) : ℝ) + tCrit * tds.2.2
            cohensD := cohensD group1Values group2Values paired
            group1 := { name := group1Name, n := n1, mean := mean1, std := std group1Values }
            group2 := { name := group2Name, n := n2, mean := mean2, std := std group2Values } }

/-- The full t-test engine (`runTTest`, t-test.ts): the core plus the
p-value, which is the only part of the numeric result that reads
`alternative`. -/
noncomputable def runTTest (toStr : ℚ → String) (cdf tinv : ℝ → ℝ → ℝ) (t : Table)
    (varName : String) (groupByColumn : Option String) (paired : Bool)
    (alternative : Alt) : Except StatError TTestDetails :=
  (runTTestCore toStr tinv t varName groupByColumn paired).map fun core =>
    { toTTestCore := core
      pValue := tDistributionPValue cdf core.tStatistic ((core.degreesOfFreedom : ℚ) : ℝ)
        alternative
      alternative := alternative }

end TTest

/-- A row of the worked example of the specification: a string group label
and a numeric value. -/
def exRow (g : String) (v : ℚ) : Row := fun c =>
  if c = "group" then some (.str g)
  else if c = "value" then some (.num v)
  else none

/-- The worked example table: groups X = [10, 20, 30] and Y = [40, 50, 60]. -/
def exTable : Table :=
  { headers := ["group", "value"]
    rows := [exRow "X" 10, exRow "X" 20, exRow "X" 30,
             exRow "Y" 40, exRow "Y" 50, exRow "Y" 60] }

/-- Two rows whose column `c` holds a number and a non-missing string: the
string cell is usable for nothing numeric, so it lands in the missing count
of the column statistics. -/
def strCellRows : List Row :=
  [fun c => if c = "c" then some (.num 1) else none,
   fun c => if c = "c" then some (.str "x") else none]

/-! Theorems.  Helper lemmas first, then one theorem per claim. -/

/-- Arithmetic core of the column test: a count-over-length ratio exceeds a
half exactly when twice the count exceeds the length. -/
theorem half_lt_count_div_len (cnt len : ℕ) (hpos : 0 < len) :
    ((cnt : ℚ) / (len : ℚ) > 1 / 2) ↔ (len < 2 * cnt) := by
  have hl : (0 : ℚ) < (len : ℚ) := by exact_mod_cast hpos
  rw [gt_iff_lt, div_lt_div_iff₀ (by norm_num) hl, one_mul]
  constructor
  · intro h
    have h2 : len < cnt * 2 := by exact_mod_cast h
    omega
  · intro h
    have h2 : len < cnt * 2 := by omega
    exact_mod_cast h2

/-- The rational-comparison column test agrees with its integer form. -/
theorem isNumericColumn_eq_nat (values : List Cell) :
    isNumericColumn values = isNumericColumnNat values := by
  unfold isNumericColumn isNumericColumnNat
  rcases Nat.eq_zero_or_pos (values.filter fun v => v.isSome).length with h0 | hpos
  · have hnil : (values.filter fun v => v.isSome) = [] := List.length_eq_zero.mp h0
    simp [hnil]
  · rw [if_neg hpos.ne', decide_eq_decide]
    exact half_lt_count_div_len _ _ hpos

/-- C2: the p-value is CDF(t) for `less`, 1 - CDF(t) for `greater` and
twice the smaller tail for `two-sided`; when the `greater` direction is the
correct one (its tail is the smaller), the `greater` p-value is exactly half
the two-sided p-value; and the engine's returned p-value is exactly this
dispatch applied to its t statistic and degrees of freedom. -/
theorem claim_C2_pvalue_dispatch (cdf : ℝ → ℝ → ℝ) (tS df : ℝ)
    (toStr : ℚ → String) (tinv : ℝ → ℝ → ℝ) (t : Table) (varName : String)
    (gcol : Option String) (paired : Bool) (alt : Alt) :
    tDistributionPValue cdf tS df .less = cdf tS df ∧
    tDistributionPValue cdf tS df .greater = 1 - cdf tS df ∧
    tDistributionPValue cdf tS df .twoSided = 2 * min (cdf tS df) (1 - cdf tS df) ∧
    (1 - cdf tS df ≤ cdf tS df →
      2 * tDistributionPValue cdf tS df .greater = tDistributionPValue cdf tS df .twoSided) ∧
    (∀ r, TTest.runTTest toStr cdf tinv t varName gcol paired alt = .ok r →
      r.pValue = tDistributionPValue cdf r.tStatistic ((r.degreesOfFreedom : ℚ) : ℝ) alt) := by
  refine ⟨rfl, rfl, rfl, ?_, ?_⟩
  · intro h
    simp [tDistributionPValue, min_eq_right h]
  · intro r hr
    unfold TTest.runTTest at hr
    cases hcore : TTest.runTTestCore toStr tinv t varName gcol paired with
    | error e => rw [hcore] at hr; simp [Except.map] at hr
    | ok core =>
      rw [hcore] at hr
      simp only [Except.map, Except.ok.injEq] at hr
      subst hr
      rfl

/-- C9: an explicitly empty column list behaves exactly like an omitted one
(the source tests `columns && columns.length > 0`), so the target set
defaults to the numeric columns and, when there are none, the call fails
with the no-numeric-columns error rather than an unknown-column error. -/
theorem claim_C9_empty_columns (toStr : ℚ → String) (t : Table) (groupBy : Option String) :
    Desc.runDescriptiveStats toStr t (some []) groupBy
      = Desc.runDescriptiveStats toStr t none groupBy ∧
    (t.numericColumns = [] →
      Desc.runDescriptiveStats toStr t (some []) groupBy = .error .noNumericColumns) := by
  constructor
  · rfl
  · intro h
    simp [Desc.runDescriptiveStats, Desc.targetColumnsOf, Desc.defaultTargets, h]

/-- C10: a successful describe call always reports `usedRows = totalRows`
and `excludedRows = 0`, whatever the cells contain and however the call is
grouped; the worked example shows the success case is reachable. -/
theorem claim_C10_dataInfo (toStr : ℚ → String) (t : Table)
    (columns : Option (List String)) (groupBy : Option String) :
    (∀ r, Desc.runDescriptiveStats toStr t columns groupBy = .ok r →
        r.dataInfo.usedRows = r.dataInfo.totalRows ∧ r.dataInfo.excludedRows = 0 ∧
        r.dataInfo.totalRows = t.totalRows) ∧
    (Desc.runDescriptiveStats (fun _ => "") exTable none none).map (fun r => r.dataInfo)
      = .ok { totalRows := 6, usedRows := 6, excludedRows := 0 } := by
  constructor
  · intro r hr
    unfold Desc.runDescriptiveStats at hr
    split at hr
    · simp at hr
    · split at hr
      · simp at hr
      · simp only [Except.ok.injEq] at hr
        subst hr
        exact ⟨rfl, rfl, rfl⟩
  · have hnum : exTable.numericColumns = ["value"] := by
      unfold Table.numericColumns
      simp only [isNumericColumn_eq_nat]
      decide
    have htc : Desc.targetColumnsOf exTable none = .ok ["value"] := by
      simp [Desc.targetColumnsOf, Desc.defaultTargets, hnum]
    unfold Desc.runDescriptiveStats
    rw [htc]
    rfl

/-- Inversion of a successful t-test core run: the confidence interval
fields are the mean difference offset by the two-sided critical value times
the standard error, for paired and independent runs alike. -/
theorem runTTestCore_ci (toStr : ℚ → String) (tinv : ℝ → ℝ → ℝ) (t : Table)
    (varName : String) (gcol : Option String) (paired : Bool) (core : TTest.TTestCore)
    (h : TTest.runTTestCore toStr tinv t varName gcol paired = .ok core) :
    core.ciLower = ((core.meanDifference : ℚ) : ℝ)
        - tCriticalValue tinv 0.05 ((core.degreesOfFreedom : ℚ) : ℝ) * core.se ∧
    core.ciUpper = ((core.meanDifference : ℚ) : ℝ)
        + tCriticalValue tinv 0.05 ((core.degreesOfFreedom : ℚ) : ℝ) * core.se := by
  unfold TTest.runTTestCore at h
  repeat' (first | (dsimp only at h) | split at h)
  all_goals simp only [reduceCtorEq, Except.ok.injEq] at h
  all_goals subst h
  all_goals exact ⟨rfl, rfl⟩

/-- C7: every successful t-test, paired or independent and under every
alternative, returns the two-sided 95 percent interval
`meanDifference ± tCritical(0.05, df) · se`, where the critical value is the
inverse CDF at `1 - alpha / 2`; changing the alternative never changes the
interval. -/
theorem claim_C7_confidence_interval (toStr : ℚ → String) (cdf tinv : ℝ → ℝ → ℝ)
    (t : Table) (varName : String) (gcol : Option String) (paired : Bool) (alt : Alt) :
    (∀ r, TTest.runTTest toStr cdf tinv t varName gcol paired alt = .ok r →
        r.ciLower = ((r.meanDifference : ℚ) : ℝ)
            - tCriticalValue tinv 0.05 ((r.degreesOfFreedom : ℚ) : ℝ) * r.se ∧
        r.ciUpper = ((r.meanDifference : ℚ) : ℝ)
            + tCriticalValue tinv 0.05 ((r.degreesOfFreedom : ℚ) : ℝ) * r.se) ∧
    (∀ alpha df : ℝ, tCriticalValue tinv alpha df = tinv (1 - alpha / 2) df) ∧
    (TTest.runTTest toStr cdf tinv t varName gcol paired alt).map
        (fun r => (r.ciLower, r.ciUpper))
      = (TTest.runTTest toStr cdf tinv t varName gcol paired .twoSided).map
        (fun r => (r.ciLower, r.ciUpper)) := by
  refine ⟨?_, fun _ _ => rfl, ?_⟩
  · intro r hr
    unfold TTest.runTTest at hr
    cases hcore : TTest.runTTestCore toStr tinv t varName gcol paired with
    | error e => rw [hcore] at hr; simp [Except.map] at hr
    | ok core =>
      rw [hcore] at hr
      simp only [Except.map, Except.ok.injEq] at hr
      subst hr
      exact runTTestCore_ci toStr tinv t varName gcol paired core hcore
  · unfold TTest.runTTest
    cases TTest.runTTestCore toStr tinv t varName gcol paired <;> rfl

/-- C1: for usable samples of sizes at least 2 the independent engine
computes `se = sqrt(var1/n1 + var2/n2)` with ddof-1 sample variances,
`t = (mean1 - mean2)/se` (0 when `se = 0`), and the Welch-Satterthwaite
degrees of freedom with the `n1 + n2 - 2` fallback when the denominator is
0; and every successful independent run carries exactly these statistics of
its two extracted groups. -/
theorem claim_C1_welch_statistics (g1 g2 : List ℚ)
    (h1 : 2 ≤ g1.length) (h2 : 2 ≤ g2.length) :
    TTest.welchSE g1 g2
        = Real.sqrt (((TTest.variance g1 / (g1.length : ℚ)
            + TTest.variance g2 / (g2.length : ℚ) : ℚ) : ℝ)) ∧
    TTest.variance g1
        = ((g1.map fun v => (v - TTest.mean g1) ^ 2).sum) / ((g1.length : ℚ) - 1) ∧
    TTest.variance g2
        = ((g2.map fun v => (v - TTest.mean g2) ^ 2).sum) / ((g2.length : ℚ) - 1) ∧
    (TTest.welchSE g1 g2 = 0 → TTest.welchT g1 g2 = 0) ∧
    (TTest.welchSE g1 g2 ≠ 0 →
      TTest.welchT g1 g2 = ((TTest.mean g1 - TTest.mean g2 : ℚ) : ℝ) / TTest.welchSE g1 g2) ∧
    TTest.welchDFDenom g1 g2
        = (TTest.variance g1 / (g1.length : ℚ)) ^ 2 / ((g1.length : ℚ) - 1)
          + (TTest.variance g2 / (g2.length : ℚ)) ^ 2 / ((g2.length : ℚ) - 1) ∧
    (TTest.welchDFDenom g1 g2 = 0 →
      TTest.welchDF g1 g2 = (g1.length : ℚ) + (g2.length : ℚ) - 2) ∧
    (TTest.welchDFDenom g1 g2 ≠ 0 →
      TTest.welchDF g1 g2
        = (TTest.variance g1 / (g1.length : ℚ) + TTest.variance g2 / (g2.length : ℚ)) ^ 2
          / TTest.welchDFDenom g1 g2) ∧
    (∀ (toStr : ℚ → String) (tinv : ℝ → ℝ → ℝ) (t : Table) (varName gcolName : String)
        (r : TTest.TTestCore),
      TTest.runTTestCore toStr tinv t varName (some gcolName) false = .ok r →
      ∃ vals1 vals2 : List ℚ,
        TTest.independentGroups toStr t.rows gcolName varName
          = .ok ((r.group1.name, vals1), (r.group2.name, vals2)) ∧
        2 ≤ vals1.length ∧ 2 ≤ vals2.length ∧
        r.se = TTest.welchSE vals1 vals2 ∧
        r.tStatistic = TTest.welchT vals1 vals2 ∧
        r.degreesOfFreedom = TTest.welchDF vals1 vals2) := by
  refine ⟨rfl, ?_, ?_, ?_, ?_, rfl, ?_, ?_, ?_⟩
  · unfold TTest.variance
    rw [if_neg (by omega)]
  · unfold TTest.variance
    rw [if_neg (by omega)]
  · intro h
    unfold TTest.welchT
    rw [if_pos h]
  · intro h
    unfold TTest.welchT
    rw [if_neg h]
  · intro h
    unfold TTest.welchDF
    rw [if_pos h]
  · intro h
    unfold TTest.welchDF
    rw [if_neg h]
  · intro toStr tinv t varName gcolName r h
    unfold TTest.runTTestCore at h
    by_cases hv : varName = ""
    · rw [if_pos hv] at h; exact absurd h (by simp)
    rw [if_neg hv] at h
    by_cases hg : gcolName = ""
    · rw [if_pos ⟨by simp, by simp [hg]⟩] at h; exact absurd h (by simp)
    have hcond : ¬(¬false = true ∧ (Option.getD (some gcolName) "") = "") := by simp [hg]
    rw [if_neg hcond] at h
    simp only [Option.getD] at h
    rw [if_pos hg, if_pos hg] at h
    cases hVal : validateColumns t.headers [varName, gcolName] with
    | error e => rw [hVal] at h; exact absurd h (by simp)
    | ok u =>
      rw [hVal] at h
      cases hG : TTest.independentGroups toStr t.rows gcolName varName with
      | error e => rw [hG] at h; exact absurd h (by simp)
      | ok p =>
        obtain ⟨⟨n1, v1⟩, ⟨n2, v2⟩⟩ := p
        rw [hG] at h
        try dsimp only at h
        by_cases hlen : v1.length < 2 ∨ v2.length < 2
        · rw [if_pos hlen] at h; exact absurd h (by simp)
        rw [if_neg hlen] at h
        rw [if_neg (by simp)] at h
        simp only [Except.ok.injEq] at h
        subst h
        exact ⟨v1, v2, rfl, by omega, by omega, rfl, rfl, rfl⟩

/-- Witness for C1 at the concrete samples [1, 2] and [3, 4]. -/
theorem claim_C1_welch_statistics_witness :
    TTest.welchSE [(1 : ℚ), 2] [(3 : ℚ), 4]
      = Real.sqrt (((TTest.variance [(1 : ℚ), 2] / (([(1 : ℚ), 2] : List ℚ).length : ℚ)
          + TTest.variance [(3 : ℚ), 4] / (([(3 : ℚ), 4] : List ℚ).length : ℚ) : ℚ) : ℝ)) :=
  (claim_C1_welch_statistics [1, 2] [3, 4] (by decide) (by decide)).1

/-- C4: the distinct non-missing stringified group values are discovered in
first-encountered row order; any count other than two fails with the
group-count error naming the found groups; otherwise group1 is the first
value and group2 the second, and every successful independent run has
`meanDifference = mean(group1) - mean(group2)`; on the worked example the
groups are X then Y with mean difference -30. -/
theorem claim_C4_group_order (toStr : ℚ → String) (t : Table) (gcolName varName : String) :
    ((TTest.uniqueGroups toStr t.rows gcolName).length ≠ 2 →
      TTest.independentGroups toStr t.rows gcolName varName
        = .error (.groupCount gcolName (TTest.uniqueGroups toStr t.rows gcolName))) ∧
    (∀ a b, TTest.uniqueGroups toStr t.rows gcolName = [a, b] →
      TTest.independentGroups toStr t.rows gcolName varName
        = .ok ((a, extractNumericValues
              (t.rows.filter fun row => cellToString toStr (row gcolName) == a) varName),
            (b, extractNumericValues
              (t.rows.filter fun row => cellToString toStr (row gcolName) == b) varName))) ∧
    (∀ (tinv : ℝ → ℝ → ℝ) (r : TTest.TTestCore),
      TTest.runTTestCore toStr tinv t varName (some gcolName) false = .ok r →
      ∃ vals1 vals2 : List ℚ,
        TTest.independentGroups toStr t.rows gcolName varName
          = .ok ((r.group1.name, vals1), (r.group2.name, vals2)) ∧
        r.meanDifference = TTest.mean vals1 - TTest.mean vals2) ∧
    (TTest.runTTestCore (fun _ => "") (fun _ _ => 0) exTable "value" (some "group") false).map
        (fun r => (r.group1.name, r.group2.name, r.meanDifference))
      = .ok ("X", "Y", -30) := by
  refine ⟨?_, ?_, ?_, ?_⟩
  · intro h
    unfold TTest.independentGroups
    rcases hU : TTest.uniqueGroups toStr t.rows gcolName with _ | ⟨a, _ | ⟨b, _ | ⟨c, rest⟩⟩⟩
    · rfl
    · rfl
    · rw [hU] at h; simp at h
    · rfl
  · intro a b hU
    unfold TTest.independentGroups
    rw [hU]
  · intro tinv r h
    unfold TTest.runTTestCore at h
    by_cases hv : varName = ""
    · rw [if_pos hv] at h; exact absurd h (by simp)
    rw [if_neg hv] at h
    by_cases hg : gcolName = ""
    · rw [if_pos ⟨by simp, by simp [hg]⟩] at h; exact absurd h (by simp)
    have hcond : ¬(¬false = true ∧ (Option.getD (some gcolName) "") = "") := by simp [hg]
    rw [if_neg hcond] at h
    simp only [Option.getD] at h
    rw [if_pos hg, if_pos hg] at h
    cases hVal : validateColumns t.headers [varName, gcolName] with
    | error e => rw [hVal] at h; exact absurd h (by simp)
    | ok u =>
      rw [hVal] at h
      cases hG : TTest.independentGroups toStr t.rows gcolName varName with
      | error e => rw [hG] at h; exact absurd h (by simp)
      | ok p =>
        obtain ⟨⟨n1, v1⟩, ⟨n2, v2⟩⟩ := p
        rw [hG] at h
        try dsimp only at h
        by_cases hlen : v1.length < 2 ∨ v2.length < 2
        · rw [if_pos hlen] at h; exact absurd h (by simp)
        rw [if_neg hlen] at h
        rw [if_neg (by simp)] at h
        simp only [Except.ok.injEq] at h
        subst h
        exact ⟨v1, v2, rfl, rfl⟩
  · have h : (TTest.runTTestCore (fun _ => "") (fun _ _ => 0) exTable "value"
        (some "group") false).map
          (fun r => (r.group1.name, r.group2.name, r.meanDifference))
        = .ok ("X", "Y",
            TTest.mean [(10 : ℚ), 20, 30] - TTest.mean [(40 : ℚ), 50, 60]) := rfl
    rw [h]
    norm_num [TTest.mean, List.sum_cons, List.sum_nil]

theorem cellNum_none : cellNum? none = none := rfl

theorem cellNum_num (q : ℚ) : cellNum? (some (.num q)) = some q := rfl

theorem cellNum_str (s : String) : cellNum? (some (.str s)) = none := rfl

theorem isNumCell_none : isNumCell none = false := rfl

theorem isNumCell_num (q : ℚ) : isNumCell (some (.num q)) = true := rfl

theorem isNumCell_str (s : String) : isNumCell (some (.str s)) = false := rfl

/-- Every cell either passes the numeric guard or is counted by the
complementary filter, so the two lengths add up to the cell count. -/
theorem filterMap_cellNum_length_add (cells : List Cell) :
    (cells.filterMap cellNum?).length + (cells.filter fun v => !isNumCell v).length
      = cells.length := by
  induction cells with
  | nil => rfl
  | cons c cs ih =>
    rw [List.filterMap_cons, List.filter_cons]
    rcases c with _ | ⟨q⟩ | ⟨s⟩ <;>
      simp only [cellNum_none, cellNum_num, cellNum_str, isNumCell_none, isNumCell_num,
        isNumCell_str, Bool.not_true, Bool.not_false, List.length_cons] <;>
      simp <;> omega

/-- The usable values and the unusable cells of a column partition its rows. -/
theorem extract_length_add_nonNum (rows : List Row) (col : String) :
    (extractNumericValues rows col).length
      + ((rows.map fun row => row col).filter fun v => !isNumCell v).length
      = rows.length := by
  unfold extractNumericValues
  rw [filterMap_cellNum_length_add, List.length_map]

/-- A column never has more usable values than rows. -/
theorem extract_length_le (rows : List Row) (col : String) :
    (extractNumericValues rows col).length ≤ rows.length :=
  le_trans (List.length_filterMap_le _ _) (le_of_eq (List.length_map _ _))

/-- Count plus missing count of a column-statistics record is the row count
of the analysed subset, in both the empty and the nonempty branch. -/
theorem computeColumnStats_count_add (col : String) (values : List ℚ) (tot : ℕ)
    (h : values.length ≤ tot) :
    (Desc.computeColumnStats col values tot).count
      + (Desc.computeColumnStats col values tot).missingCount = tot := by
  unfold Desc.computeColumnStats
  by_cases h0 : values.length = 0
  · rw [if_pos h0]
    dsimp only
    omega
  · rw [if_neg h0]
    dsimp only
    omega

/-- C8: for every column-statistics record of a describe call, over the
whole table or within a group partition, count plus missingCount is the row
count of the analysed subset; the missing count is exactly the number of
cells failing the numeric guard, so non-missing string cells of a requested
column are counted as missing, as the concrete two-row example shows. -/
theorem claim_C8_count_invariant (toStr : ℚ → String) (t : Table)
    (columns : Option (List String)) (groupBy : Option String) :
    (∀ (rows : List Row) (col : String),
        (Desc.computeColumnStats col (extractNumericValues rows col) rows.length).count
          + (Desc.computeColumnStats col (extractNumericValues rows col)
              rows.length).missingCount
          = rows.length ∧
        (Desc.computeColumnStats col (extractNumericValues rows col)
              rows.length).missingCount
          = ((rows.map fun row => row col).filter fun v => !isNumCell v).length) ∧
    (∀ r, Desc.runDescriptiveStats toStr t columns groupBy = .ok r →
        (∀ s ∈ r.columns, s.count + s.missingCount = t.totalRows) ∧
        (∀ g gs, groupBy = some g → r.groups = some gs →
          ∀ p ∈ gs, ∀ s ∈ p.2,
            s.count + s.missingCount
              = (t.rows.filter fun row => cellToString toStr (row g) == p.1).length)) ∧
    (Desc.computeColumnStats "c" (extractNumericValues strCellRows "c")
        strCellRows.length).count = 1 ∧
    (Desc.computeColumnStats "c" (extractNumericValues strCellRows "c")
        strCellRows.length).missingCount = 1 := by
  refine ⟨?_, ?_, rfl, rfl⟩
  · intro rows col
    have hadd := extract_length_add_nonNum rows col
    constructor
    · exact computeColumnStats_count_add _ _ _ (extract_length_le _ _)
    · unfold Desc.computeColumnStats
      generalize hB : ((rows.map fun row => row col).filter fun v => !isNumCell v).length = b
        at hadd ⊢
      generalize hA : (extractNumericValues rows col).length = a at hadd ⊢
      clear hA hB
      by_cases h0 : a = 0
      · rw [if_pos h0]
        dsimp only
        omega
      · rw [if_neg h0]
        dsimp only
        omega
  · intro r hr
    unfold Desc.runDescriptiveStats at hr
    split at hr
    · simp at hr
    · split at hr
      · simp at hr
      · simp only [Except.ok.injEq] at hr
        subst hr
        constructor
        · intro s hs
          simp only [List.mem_map] at hs
          obtain ⟨col, hcol, rfl⟩ := hs
          exact computeColumnStats_count_add _ _ _ (extract_length_le _ _)
        · intro g gs hgB hgs p hp s hs
          subst hgB
          simp only [Option.map_some', Option.some.injEq] at hgs
          subst hgs
          simp only [List.mem_map] at hp
          obtain ⟨gv, hgv, rfl⟩ := hp
          simp only [List.mem_map] at hs
          obtain ⟨col, hcol, rfl⟩ := hs
          exact computeColumnStats_count_add _ _ _ (extract_length_le _ _)

/-- C5 counterexample: at an empty usable subset (n = 0, which the claim
includes) the skewness and kurtosis fields of the column statistics are NaN
(modelled `none`), not 0, so the guard "skewness is 0 whenever n is below 3"
fails at n = 0. -/
theorem claim_C5_moment_guards_counterexample :
    (Desc.computeColumnStats "c" [] 0).skewness = none ∧
    (Desc.computeColumnStats "c" [] 0).skewness ≠ some 0 ∧
    (Desc.computeColumnStats "c" [] 0).kurtosis = none ∧
    (Desc.computeColumnStats "c" [] 0).std = none := by
  refine ⟨rfl, ?_, rfl, rfl⟩
  intro h
  rw [show (Desc.computeColumnStats "c" [] 0).skewness = none from rfl] at h
  exact Option.noConfusion h

theorem mean_const (values : List ℚ) (q : ℚ) (hne : values ≠ [])
    (h : ∀ v ∈ values, v = q) : Desc.mean values = q := by
  unfold Desc.mean
  rw [List.sum_eq_card_nsmul values q h, nsmul_eq_mul]
  have hlen : (values.length : ℚ) ≠ 0 := by
    have : values.length ≠ 0 := fun h0 => hne (List.length_eq_zero.mp h0)
    exact_mod_cast this
  field_simp

theorem computeColumnStats_moment_fields (c : String) (values : List ℚ) (tot : ℕ)
    (hne : values.length ≠ 0) :
    (Desc.computeColumnStats c values tot).std
        = some (Desc.std values (Desc.mean values)) ∧
    (Desc.computeColumnStats c values tot).skewness
        = some (Desc.skewness values (Desc.mean values) (Desc.std values (Desc.mean values))) ∧
    (Desc.computeColumnStats c values tot).kurtosis
        = some (Desc.kurtosis values (Desc.mean values) (Desc.std values (Desc.mean values))) := by
  unfold Desc.computeColumnStats
  rw [if_neg hne]
  exact ⟨rfl, rfl, rfl⟩

theorem std_const (values : List ℚ) (q : ℚ) (hne : values ≠ [])
    (h : ∀ v ∈ values, v = q) : Desc.std values (Desc.mean values) = 0 := by
  unfold Desc.std
  by_cases h1 : values.length ≤ 1
  · rw [if_pos h1]
  · rw [if_neg h1]
    have hm : Desc.mean values = q := mean_const values q hne h
    have hsum : (values.map fun v => (v - Desc.mean values) ^ 2).sum = 0 := by
      rw [List.sum_eq_card_nsmul _ (0 : ℚ), smul_zero]
      intro x hx
      simp only [List.mem_map] at hx
      obtain ⟨v, hv, rfl⟩ := hx
      rw [hm, h v hv]
      ring
    rw [hsum]
    norm_num

/-- C5 as amended: std is 0 for a constant non-empty subset; for a nonempty
subset, skewness is 0 when n is below 3 or the reported std is 0, and
kurtosis is 0 when n is below 4 or the reported std is 0; at n = 0 the three
fields are NaN (modelled `none`) rather than 0. -/
theorem claim_C5_moment_guards (c : String) (values : List ℚ) (tot : ℕ) :
    (∀ q : ℚ, values ≠ [] → (∀ v ∈ values, v = q) →
      (Desc.computeColumnStats c values tot).std = some 0) ∧
    (1 ≤ values.length →
      (values.length < 3 ∨ (Desc.computeColumnStats c values tot).std = some 0) →
      (Desc.computeColumnStats c values tot).skewness = some 0) ∧
    (1 ≤ values.length →
      (values.length < 4 ∨ (Desc.computeColumnStats c values tot).std = some 0) →
      (Desc.computeColumnStats c values tot).kurtosis = some 0) ∧
    (values.length = 0 →
      (Desc.computeColumnStats c values tot).std = none ∧
      (Desc.computeColumnStats c values tot).skewness = none ∧
      (Desc.computeColumnStats c values tot).kurtosis = none) ∧
    (Desc.computeColumnStats "c" [(1 : ℚ), 2] 2).skewness = some 0 := by
  refine ⟨?_, ?_, ?_, ?_, ?_⟩
  · intro q hne hconst
    have hne' : values.length ≠ 0 := fun h0 => hne (List.length_eq_zero.mp h0)
    rw [(computeColumnStats_moment_fields c values tot hne').1,
      std_const values q hne hconst]
  · intro hn hcase
    have hne' : values.length ≠ 0 := by omega
    obtain ⟨hstd, hskew, hkurt⟩ := computeColumnStats_moment_fields c values tot hne'
    rw [hskew]
    rcases hcase with hlt | hzero
    · unfold Desc.skewness
      rw [if_pos (Or.inl hlt)]
    · rw [hstd, Option.some.injEq] at hzero
      unfold Desc.skewness
      rw [if_pos (Or.inr hzero)]
  · intro hn hcase
    have hne' : values.length ≠ 0 := by omega
    obtain ⟨hstd, hskew, hkurt⟩ := computeColumnStats_moment_fields c values tot hne'
    rw [hkurt]
    rcases hcase with hlt | hzero
    · unfold Desc.kurtosis
      rw [if_pos (Or.inl hlt)]
    · rw [hstd, Option.some.injEq] at hzero
      unfold Desc.kurtosis
      rw [if_pos (Or.inr hzero)]
  · intro h0
    unfold Desc.computeColumnStats
    rw [if_pos h0]
    exact ⟨rfl, rfl, rfl⟩
  · have hf := computeColumnStats_moment_fields "c" [(1 : ℚ), 2] 2 (by decide)
    rw [hf.2.1]
    unfold Desc.skewness
    rw [if_pos (Or.inl (by decide))]

/-- C3 counterexample: `Number("Infinity")` is the non-finite value
Infinity, which is not NaN, so `parseValue` classifies the cell as a number
even though the trimmed string does not parse as a FINITE number; the
number-iff-finite reading of the claim is false at this input. -/
theorem claim_C3_parse_counterexample :
    parseValue "Infinity" = .num (.inf false) ∧
    specFiniteNumber "Infinity" = false ∧
    ¬((∃ v, parseValue "Infinity" = .num v) ↔ specFiniteNumber "Infinity" = true) := by
  refine ⟨rfl, rfl, ?_⟩
  intro h
  exact absurd (h.mp ⟨.inf false, rfl⟩) (by decide)

/-- C3 as amended: a raw cell is missing exactly when its trimmed value is
in the fixed vocabulary; otherwise it becomes a number exactly when the
whole trimmed string converts to a non-NaN JavaScript number (which includes
the infinities, so not necessarily a finite one), and stays a string
otherwise; "1.5", "-10" and "0" are numbers and "1.5kg" is not. -/
theorem claim_C3_cell_normalization (value : String) :
    (parseValue value = .null ↔ MISSING_VALUES.contains (jsTrim value) = true) ∧
    ((∃ v, parseValue value = .num v) ↔
      (MISSING_VALUES.contains (jsTrim value) = false ∧
        jsStringToNum (jsTrim value).toList ≠ .nan)) ∧
    ((∃ s, parseValue value = .str s) ↔
      (MISSING_VALUES.contains (jsTrim value) = false ∧
        jsStringToNum (jsTrim value).toList = .nan)) ∧
    parseValue "1.5" = .num (.fin (3 / 2)) ∧
    parseValue "-10" = .num (.fin (-10)) ∧
    parseValue "0" = .num (.fin 0) ∧
    parseValue "1.5kg" = .str "1.5kg" := by
  have hex1 : parseValue "1.5" = .num (.fin ((1 : ℚ) + 5 / 10 ^ 1)) := rfl
  have hex2 : parseValue "-10" = .num (.fin (-((10 : ℚ) + 0 / 10 ^ 0))) := rfl
  have hex3 : parseValue "0" = .num (.fin ((0 : ℚ) + 0 / 10 ^ 0)) := rfl
  refine ⟨?_, ?_, ?_, by rw [hex1]; norm_num, by rw [hex2]; norm_num,
    by rw [hex3]; norm_num, rfl⟩ <;>
  · unfold parseValue
    by_cases hm : MISSING_VALUES.contains (jsTrim value) = true
    · have hmem : jsTrim value ∈ MISSING_VALUES := List.elem_iff.mp hm
      rw [if_pos hm]
      simp [hm, hmem]
    · have hm2 : MISSING_VALUES.contains (jsTrim value) = false := by
        revert hm; cases MISSING_VALUES.contains (jsTrim value) <;> simp
      have hmem : jsTrim value ∉ MISSING_VALUES := fun hx => hm (List.elem_iff.mpr hx)
      rw [if_neg hm]
      have hne : jsTrim value ≠ "" := by
        intro h0
        rw [h0] at hm2
        exact absurd hm2 (by decide)
      by_cases hn : jsStringToNum (jsTrim value).data = JsNum.nan
      · rw [if_neg (by simp [hn])]
        simp [hm2, hmem, hn, String.toList]
      · rw [if_pos ⟨hn, hne⟩]
        simp [hm2, hmem, hn, String.toList]

theorem sorted_getD_mono {l : List ℚ} (hs : l.Sorted (· ≤ ·)) {i j : ℕ}
    (hij : i ≤ j) (hj : j < l.length) : l.getD i 0 ≤ l.getD j 0 := by
  have hi : i < l.length := lt_of_le_of_lt hij hj
  rw [List.getD_eq_getElem?_getD, List.getElem?_eq_getElem hi,
    List.getD_eq_getElem?_getD, List.getElem?_eq_getElem hj]
  simp only [Option.getD_some]
  rcases eq_or_lt_of_le hij with rfl | hlt
  · exact le_refl _
  · exact List.Sorted.rel_get_of_lt hs (a := ⟨i, hi⟩) (b := ⟨j, hj⟩) hlt

theorem interpAt_bounds {l : List ℚ} (hs : l.Sorted (· ≤ ·)) (hn : 1 ≤ l.length)
    {x : ℚ} (hx0 : 0 ≤ x) (hxn : x ≤ (l.length : ℚ) - 1) :
    l.getD (Int.toNat (Int.floor x)) 0 ≤ Desc.interpAt l x ∧
    Desc.interpAt l x ≤ l.getD (Int.toNat (Int.ceil x)) 0 := by
  have hfl0 : 0 ≤ Int.floor x := Int.le_floor.mpr (by exact_mod_cast hx0)
  have hcl : Int.ceil x ≤ (l.length : ℤ) - 1 := by
    rw [Int.ceil_le]
    push_cast
    exact hxn
  have hflcl : Int.floor x ≤ Int.ceil x := Int.floor_le_ceil x
  have hclN : Int.toNat (Int.ceil x) < l.length := by omega
  have hflN : Int.toNat (Int.floor x) < l.length := by omega
  unfold Desc.interpAt
  by_cases hfc : Int.floor x = Int.ceil x
  · rw [if_pos hfc, hfc]
    exact ⟨le_refl _, le_refl _⟩
  · rw [if_neg hfc]
    have hab : l.getD (Int.toNat (Int.floor x)) 0 ≤ l.getD (Int.toNat (Int.ceil x)) 0 :=
      sorted_getD_mono hs (by omega) hclN
    have hf0 : 0 ≤ x - (Int.floor x : ℚ) := sub_nonneg.mpr (Int.floor_le x)
    have hf1 : x - (Int.floor x : ℚ) ≤ 1 := by
      have hle : x ≤ (Int.ceil x : ℚ) := Int.le_ceil x
      have hcb : Int.ceil x ≤ Int.floor x + 1 := Int.ceil_le_floor_add_one x
      have : (Int.ceil x : ℚ) ≤ (Int.floor x : ℚ) + 1 := by exact_mod_cast hcb
      linarith
    constructor
    · nlinarith [mul_nonneg hf0 (sub_nonneg.mpr hab)]
    · nlinarith [mul_nonneg (sub_nonneg.mpr hf1) (sub_nonneg.mpr hab)]

theorem interpAt_mono {l : List ℚ} (hs : l.Sorted (· ≤ ·)) (hn : 1 ≤ l.length)
    {x y : ℚ} (hx0 : 0 ≤ x) (hxy : x ≤ y) (hyn : y ≤ (l.length : ℚ) - 1) :
    Desc.interpAt l x ≤ Desc.interpAt l y := by
  have hy0 : 0 ≤ y := le_trans hx0 hxy
  have hxn : x ≤ (l.length : ℚ) - 1 := le_trans hxy hyn
  rcases le_or_lt (Int.ceil x) (Int.floor y) with hcf | hfc
  · have h1 := (interpAt_bounds hs hn hx0 hxn).2
    have h2 := (interpAt_bounds hs hn hy0 hyn).1
    have hflyN : Int.toNat (Int.floor y) < l.length := by
      have : Int.floor y ≤ (l.length : ℤ) - 1 := by
        have : (Int.floor y : ℚ) ≤ y := Int.floor_le y
        have := le_trans this hyn
        have h3 : Int.floor y ≤ (l.length : ℤ) - 1 := by
          rw [← @Int.cast_le ℚ]
          push_cast
          linarith
        exact h3
      omega
    have hmid : l.getD (Int.toNat (Int.ceil x)) 0 ≤ l.getD (Int.toNat (Int.floor y)) 0 :=
      sorted_getD_mono hs (by omega) hflyN
    linarith
  · have hk : Int.floor x = Int.floor y := by
      have h1 : Int.floor x ≤ Int.floor y := Int.floor_le_floor hxy
      have h2 : Int.ceil x ≤ Int.floor x + 1 := Int.ceil_le_floor_add_one x
      omega
    by_cases hxint : Int.floor x = Int.ceil x
    · have h2 := (interpAt_bounds hs hn hy0 hyn).1
      have h1 : Desc.interpAt l x = l.getD (Int.toNat (Int.floor x)) 0 := by
        unfold Desc.interpAt
        rw [if_pos hxint]
      rw [h1, hk]
      exact h2
    · by_cases hyint : Int.floor y = Int.ceil y
      · have hyq : y = (Int.floor y : ℚ) := by
          have ha : (Int.floor y : ℚ) ≤ y := Int.floor_le y
          have hb : y ≤ (Int.ceil y : ℚ) := Int.le_ceil y
          rw [← hyint] at hb
          linarith
        have hxeqy : x = y := by
          have : y ≤ x := by
            rw [hyq, ← hk]
            exact Int.floor_le x
          linarith
        rw [hxeqy]
      · have hcx : Int.ceil x = Int.floor x + 1 := by
          have h2 := Int.ceil_le_floor_add_one x
          have h3 := Int.floor_le_ceil x
          omega
        have hcy : Int.ceil y = Int.floor y + 1 := by
          have h2 := Int.ceil_le_floor_add_one y
          have h3 := Int.floor_le_ceil y
          omega
        unfold Desc.interpAt
        rw [if_neg hxint, if_neg hyint, hcx, hcy, hk]
        have hclN : Int.toNat (Int.floor y + 1) < l.length := by
          have h4 : Int.floor y + 1 ≤ (l.length : ℤ) - 1 := by
            rw [← hcy]
            exact Int.ceil_le.mpr (by push_cast; linarith)
          have h5 : 0 ≤ Int.floor y := Int.le_floor.mpr (by exact_mod_cast hy0)
          omega
        have hab : l.getD (Int.toNat (Int.floor y)) 0
            ≤ l.getD (Int.toNat (Int.floor y + 1)) 0 :=
          sorted_getD_mono hs (by omega) hclN
        have hfxy : x - (Int.floor y : ℚ) ≤ y - (Int.floor y : ℚ) := by linarith
        nlinarith [mul_nonneg (sub_nonneg.mpr hfxy) (sub_nonneg.mpr hab)]

theorem percentile_mono {l : List ℚ} (hs : l.Sorted (· ≤ ·)) (hn : 1 ≤ l.length)
    {p q : ℚ} (hp : 0 ≤ p) (hpq : p ≤ q) (hq : q ≤ 100) :
    Desc.percentile l p ≤ Desc.percentile l q := by
  unfold Desc.percentile
  by_cases h0 : l.length = 0
  · exact absurd h0 (by omega)
  rw [if_neg h0, if_neg h0]
  by_cases h1 : l.length = 1
  · rw [if_pos h1, if_pos h1]
  · rw [if_neg h1, if_neg h1]
    have hlen : (1 : ℚ) ≤ (l.length : ℚ) := by exact_mod_cast hn
    have hfac : (0 : ℚ) ≤ (l.length : ℚ) - 1 := by linarith
    apply interpAt_mono hs hn
    · positivity
    · apply mul_le_mul_of_nonneg_right _ hfac
      linarith
    · have h2 : q / 100 * ((l.length : ℚ) - 1) ≤ 1 * ((l.length : ℚ) - 1) := by
        apply mul_le_mul_of_nonneg_right _ hfac
        linarith
      linarith

theorem percentile_ge_head {l : List ℚ} (hs : l.Sorted (· ≤ ·)) (hn : 1 ≤ l.length)
    {p : ℚ} (hp : 0 ≤ p) (hq : p ≤ 100) :
    l.getD 0 0 ≤ Desc.percentile l p := by
  unfold Desc.percentile
  by_cases h0 : l.length = 0
  · exact absurd h0 (by omega)
  rw [if_neg h0]
  by_cases h1 : l.length = 1
  · rw [if_pos h1]
  · rw [if_neg h1]
    have hlen : (2 : ℚ) ≤ (l.length : ℚ) := by
      have : 2 ≤ l.length := by omega
      exact_mod_cast this
    have hfac : (0 : ℚ) ≤ (l.length : ℚ) - 1 := by linarith
    have hx0 : (0 : ℚ) ≤ p / 100 * ((l.length : ℚ) - 1) := by positivity
    have hxn : p / 100 * ((l.length : ℚ) - 1) ≤ (l.length : ℚ) - 1 := by
      have h2 : p / 100 * ((l.length : ℚ) - 1) ≤ 1 * ((l.length : ℚ) - 1) := by
        apply mul_le_mul_of_nonneg_right _ hfac
        linarith
      linarith
    have hb := (interpAt_bounds hs hn hx0 hxn).1
    have hflN : Int.toNat (Int.floor (p / 100 * ((l.length : ℚ) - 1))) < l.length := by
      have h2 : Int.floor (p / 100 * ((l.length : ℚ) - 1)) ≤ (l.length : ℤ) - 1 := by
        have h3 := Int.floor_le (p / 100 * ((l.length : ℚ) - 1))
        rw [← @Int.cast_le ℚ]
        push_cast
        linarith
      omega
    have h0 : l.getD 0 0 ≤ l.getD (Int.toNat (Int.floor (p / 100 * ((l.length : ℚ) - 1)))) 0 :=
      sorted_getD_mono hs (Nat.zero_le _) hflN
    linarith

theorem percentile_le_last {l : List ℚ} (hs : l.Sorted (· ≤ ·)) (hn : 1 ≤ l.length)
    {p : ℚ} (hp : 0 ≤ p) (hq : p ≤ 100) :
    Desc.percentile l p ≤ l.getD (l.length - 1) 0 := by
  unfold Desc.percentile
  by_cases h0 : l.length = 0
  · exact absurd h0 (by omega)
  rw [if_neg h0]
  by_cases h1 : l.length = 1
  · rw [if_pos h1, h1]
  · rw [if_neg h1]
    have hlen : (2 : ℚ) ≤ (l.length : ℚ) := by
      have : 2 ≤ l.length := by omega
      exact_mod_cast this
    have hfac : (0 : ℚ) ≤ (l.length : ℚ) - 1 := by linarith
    have hx0 : (0 : ℚ) ≤ p / 100 * ((l.length : ℚ) - 1) := by positivity
    have hxn : p / 100 * ((l.length : ℚ) - 1) ≤ (l.length : ℚ) - 1 := by
      have h2 : p / 100 * ((l.length : ℚ) - 1) ≤ 1 * ((l.length : ℚ) - 1) := by
        apply mul_le_mul_of_nonneg_right _ hfac
        linarith
      linarith
    have hb := (interpAt_bounds hs hn hx0 hxn).2
    have hclZ : Int.ceil (p / 100 * ((l.length : ℚ) - 1)) ≤ (l.length : ℤ) - 1 := by
      rw [Int.ceil_le]
      push_cast
      linarith
    have hcl0 : 0 ≤ Int.ceil (p / 100 * ((l.length : ℚ) - 1)) := by
      have := Int.floor_le_ceil (p / 100 * ((l.length : ℚ) - 1))
      have h0 := Int.le_floor.mpr (show ((0 : ℤ) : ℚ) ≤ p / 100 * ((l.length : ℚ) - 1) by
        exact_mod_cast hx0)
      omega
    have hlast : l.getD (Int.toNat (Int.ceil (p / 100 * ((l.length : ℚ) - 1)))) 0
        ≤ l.getD (l.length - 1) 0 :=
      sorted_getD_mono hs (by omega) (by omega)
    linarith

theorem computeColumnStats_quantile_fields (c : String) (values : List ℚ) (tot : ℕ)
    (hne : values.length ≠ 0) :
    (Desc.computeColumnStats c values tot).min
        = some ((values.mergeSort).getD 0 0) ∧
    (Desc.computeColumnStats c values tot).q1
        = some (Desc.percentile (values.mergeSort) 25) ∧
    (Desc.computeColumnStats c values tot).median
        = some (Desc.percentile (values.mergeSort) 50) ∧
    (Desc.computeColumnStats c values tot).q3
        = some (Desc.percentile (values.mergeSort) 75) ∧
    (Desc.computeColumnStats c values tot).max
        = some ((values.mergeSort).getD ((values.mergeSort).length - 1) 0) := by
  unfold Desc.computeColumnStats
  rw [if_neg hne]
  exact ⟨rfl, rfl, rfl, rfl, rfl⟩

theorem percentile_single (v : ℚ) (p : ℚ) : Desc.percentile [v] p = v := by
  unfold Desc.percentile
  norm_num

/-- C6: for a nonempty usable subset the reported quantile fields satisfy
min <= q1 <= median <= q3 <= max (linear-interpolation percentiles on the
sorted values); a one-element subset yields that single value for all three
quantiles; and on [1..10] the quantiles are 13/4, 11/2 and 31/4, the worked
values of the specification. -/
theorem claim_C6_quantile_order (c : String) (values : List ℚ) (tot : ℕ) :
    (values ≠ [] →
      ∃ mn q1 md q3 mx,
        (Desc.computeColumnStats c values tot).min = some mn ∧
        (Desc.computeColumnStats c values tot).q1 = some q1 ∧
        (Desc.computeColumnStats c values tot).median = some md ∧
        (Desc.computeColumnStats c values tot).q3 = some q3 ∧
        (Desc.computeColumnStats c values tot).max = some mx ∧
        mn ≤ q1 ∧ q1 ≤ md ∧ md ≤ q3 ∧ q3 ≤ mx) ∧
    (∀ v : ℚ, values = [v] →
      (Desc.computeColumnStats c values tot).q1 = some v ∧
      (Desc.computeColumnStats c values tot).median = some v ∧
      (Desc.computeColumnStats c values tot).q3 = some v) ∧
    ((Desc.computeColumnStats "v" ([1, 2, 3, 4, 5, 6, 7, 8, 9, 10] : List ℚ) 10).q1
        = some (13 / 4) ∧
    (Desc.computeColumnStats "v" ([1, 2, 3, 4, 5, 6, 7, 8, 9, 10] : List ℚ) 10).median
        = some (11 / 2) ∧
    (Desc.computeColumnStats "v" ([1, 2, 3, 4, 5, 6, 7, 8, 9, 10] : List ℚ) 10).q3
        = some (31 / 4)) := by
  refine ⟨?_, ?_, ?_⟩
  · intro hne
    have hlen : values.length ≠ 0 := fun h => hne (List.length_eq_zero.mp h)
    obtain ⟨hmin, hq1, hmd, hq3, hmax⟩ :=
      computeColumnStats_quantile_fields c values tot hlen
    have hs : (values.mergeSort).Sorted (· ≤ ·) := List.sorted_mergeSort' values
    have hlength : (values.mergeSort).length = values.length := by simp
    have hn1 : 1 ≤ (values.mergeSort).length := by omega
    refine ⟨_, _, _, _, _, hmin, hq1, hmd, hq3, hmax, ?_, ?_, ?_, ?_⟩
    · exact percentile_ge_head hs hn1 (by norm_num) (by norm_num)
    · exact percentile_mono hs hn1 (by norm_num) (by norm_num) (by norm_num)
    · exact percentile_mono hs hn1 (by norm_num) (by norm_num) (by norm_num)
    · exact percentile_le_last hs hn1 (by norm_num) (by norm_num)
  · intro v hv
    subst hv
    obtain ⟨hmin, hq1, hmd, hq3, hmax⟩ :=
      computeColumnStats_quantile_fields c [v] tot (by simp)
    have hms : List.mergeSort [v] = [v] := List.mergeSort_eq_self (by simp)
    rw [hq1, hmd, hq3, hms, percentile_single, percentile_single, percentile_single]
    exact ⟨rfl, rfl, rfl⟩
  ·
    obtain ⟨hmin, hq1, hmd, hq3, hmax⟩ :=
      computeColumnStats_quantile_fields "v" ([1, 2, 3, 4, 5, 6, 7, 8, 9, 10] : List ℚ) 10
        (by norm_num)
    have hsorted : ([1, 2, 3, 4, 5, 6, 7, 8, 9, 10] : List ℚ).Sorted (· ≤ ·) := by
      simp only [List.sorted_cons, List.mem_cons]
      norm_num
    have hms : List.mergeSort ([1, 2, 3, 4, 5, 6, 7, 8, 9, 10] : List ℚ)
        = [1, 2, 3, 4, 5, 6, 7, 8, 9, 10] := List.mergeSort_eq_self hsorted
    have hlen : ((([1, 2, 3, 4, 5, 6, 7, 8, 9, 10] : List ℚ).length : ℚ) - 1) = 9 := by
      norm_num
    have hperc : ∀ p : ℚ, Desc.percentile ([1, 2, 3, 4, 5, 6, 7, 8, 9, 10] : List ℚ) p
        = Desc.interpAt ([1, 2, 3, 4, 5, 6, 7, 8, 9, 10] : List ℚ) (p / 100 * 9) := by
      intro p
      unfold Desc.percentile
      rw [if_neg (by norm_num), if_neg (by norm_num), hlen]
    have hint : ∀ x : ℚ, ∀ fl cl : ℤ, Int.floor x = fl → Int.ceil x = cl → fl ≠ cl →
        Desc.interpAt ([1, 2, 3, 4, 5, 6, 7, 8, 9, 10] : List ℚ) x
          = ([1, 2, 3, 4, 5, 6, 7, 8, 9, 10] : List ℚ).getD fl.toNat 0 * (1 - (x - fl))
            + ([1, 2, 3, 4, 5, 6, 7, 8, 9, 10] : List ℚ).getD cl.toNat 0 * (x - fl) := by
      intro x fl cl hfl hcl hne
      unfold Desc.interpAt
      rw [hfl, hcl, if_neg hne]
    refine ⟨?_, ?_, ?_⟩
    · rw [hq1, hms, hperc]
      rw [hint (25 / 100 * 9) 2 3 (by rw [Int.floor_eq_iff] <;> norm_num)
        (by rw [Int.ceil_eq_iff] <;> norm_num) (by decide)]
      simp only [show Int.toNat 2 = 2 from rfl, show Int.toNat 3 = 3 from rfl]
      norm_num [List.getD_cons_succ, List.getD_cons_zero]
    · rw [hmd, hms, hperc]
      rw [hint (50 / 100 * 9) 4 5 (by rw [Int.floor_eq_iff] <;> norm_num)
        (by rw [Int.ceil_eq_iff] <;> norm_num) (by decide)]
      simp only [show Int.toNat 4 = 4 from rfl, show Int.toNat 5 = 5 from rfl]
      norm_num [List.getD_cons_succ, List.getD_cons_zero]
    · rw [hq3, hms, hperc]
      rw [hint (75 / 100 * 9) 6 7 (by rw [Int.floor_eq_iff] <;> norm_num)
        (by rw [Int.ceil_eq_iff] <;> norm_num) (by decide)]
      simp only [show Int.toNat 6 = 6 from rfl, show Int.toNat 7 = 7 from rfl]
      norm_num [List.getD_cons_succ, List.getD_cons_zero]
